import Mathlib

/-!
Shallow embedding of the BP_MCP_Agent core: the on-disk result cache
(`src/cache.py`), the error taxonomy (`src/exceptions.py`) and the
retry / error-context framework (`src/error_handler.py`).

Machine reals (Python floats used for times and delays) are modelled as
rationals; the filesystem is an association list from paths to file
entries; the MD5 digest is kept abstract as a parameter `md5hex`,
since every property proved here holds for an arbitrary digest
function.  Python library behaviour (json, gzip, io) is modelled by a
small classification of file contents reflecting exactly the failure
distinctions the code observes (`json.JSONDecodeError` versus any
other exception).
-/

/-- JSON documents: the payload domain handled by `json.dump` / `json.load`. -/
inductive Json where
  | null : Json
  | bool (b : Bool) : Json
  | num (q : ℚ) : Json
  | str (s : String) : Json
  | arr (elems : List Json) : Json
  | obj (fields : List (String × Json)) : Json

/-- First-match association-list lookup, the model of Python dict lookup
and of locating a file by its path. -/
def alookup {V : Type} (k : String) : List (String × V) → Option V
  | [] => none
  | (k', v) :: rest => if k = k' then some v else alookup k rest

/-- The decoded-text layer of a stored file: either text that parses as a
JSON document, or text on which `json.load` raises `JSONDecodeError`. -/
inductive TextData where
  | jsonText (j : Json)
  | notJson

/-- Byte content of a file, classified by the decoding layers exercised by
`ResultCache.get`: a well-formed gzip stream around text, plain UTF-8 text
bytes, bytes that decode under neither layer, and serializer output left
behind by a failed `ResultCache.set` write.  UTF-8 text bytes never form
a valid gzip stream (the gzip magic byte `0x8b` cannot occur where UTF-8
places it), and gzip streams are not valid UTF-8, so the classification
of a read attempt is determined by the constructor.  `truncatedWrite`
content only ever sits at `{cache_path}.tmp` paths, which `get` never
probes, so its read classification (a truncated prefix may parse, fail
JSON parsing, or fail the encoding layer, depending on where the write
stopped) is immaterial to every probed path; `readContent` maps it to
the generic-error row only for totality. -/
inductive Content where
  | gzOf (t : TextData)
  | plain (t : TextData)
  | badBytes
  | truncatedWrite

/-- Outcome of reading and parsing a cache file, at the granularity the
code distinguishes: success, `json.JSONDecodeError`, or any other
exception (`BadGzipFile`, `UnicodeDecodeError`, `OSError`, ...). -/
inductive ReadOutcome where
  | okJson (j : Json)
  | jsonDecodeErr
  | otherErr

/-- Read a file's content the way `ResultCache.get` does: through
`gzip.open` + `json.load` when the path ends in `.gz`, else `open` +
`json.load`. -/
def readContent : Bool → Content → ReadOutcome
  | true, .gzOf (.jsonText j) => .okJson j
  | true, .gzOf .notJson => .jsonDecodeErr
  | true, .plain _ => .otherErr
  | true, .badBytes => .otherErr
  | true, .truncatedWrite => .otherErr
  | false, .plain (.jsonText j) => .okJson j
  | false, .plain .notJson => .jsonDecodeErr
  | false, .gzOf _ => .otherErr
  | false, .badBytes => .otherErr
  | false, .truncatedWrite => .otherErr

/-- A file on disk: its content and its modification time
(`os.path.getmtime`). -/
structure FileEntry where
  content : Content
  mtime : ℚ

/-- The cache directory, as a path-indexed store of files. -/
abbrev FS := List (String × FileEntry)

/-- Delete the file at path `p` (`os.remove`). -/
def fsRemove (p : String) : FS → FS
  | [] => []
  | (q, e) :: rest => if q = p then fsRemove p rest else (q, e) :: fsRemove p rest

/-- Create or overwrite the file at path `p` (the final state after
`os.replace`, or after a plain write). -/
def fsWrite (p : String) (e : FileEntry) (fs : FS) : FS :=
  (p, e) :: fsRemove p fs

/-- Configuration of a `ResultCache` instance: directory, TTL in seconds,
compression flag. -/
structure CacheConfig where
  cache_dir : String
  ttl : ℚ
  compression : Bool

/-- `ResultCache._get_cache_key`: join the two identifiers with `"_"` and
digest the result.  The digest (`hashlib.md5(...).hexdigest()`) is kept
abstract as the parameter `md5hex`. -/
def ResultCache.get_cache_key (md5hex : String → String) (test_id run_id : String) : String :=
  md5hex (test_id ++ "_" ++ run_id)

/-- Path of the compressed cache file for a key. -/
def gzPathOf (cfg : CacheConfig) (key : String) : String :=
  cfg.cache_dir ++ "/" ++ key ++ ".json.gz"

/-- Path of the uncompressed cache file for a key. -/
def jsonPathOf (cfg : CacheConfig) (key : String) : String :=
  cfg.cache_dir ++ "/" ++ key ++ ".json"

/-- `ResultCache._get_cache_path`: the write path selected by the
compression setting. -/
def ResultCache.get_cache_path (cfg : CacheConfig) (key : String) : String :=
  if cfg.compression then gzPathOf cfg key else jsonPathOf cfg key

/-- One iteration of the path loop in `ResultCache.get`, entered when the
file at `path` exists: check expiry, then read; on `JSONDecodeError`
remove the corrupted file; on any other error return miss leaving the
file alone. -/
def readAttempt (cfg : CacheConfig) (fs : FS) (now : ℚ) (path : String) (isGz : Bool)
    (entry : FileEntry) : Option Json × FS :=
  if now - entry.mtime > cfg.ttl then (none, fs)
  else
    match readContent isGz entry.content with
    | .okJson j => (some j, fs)
    | .jsonDecodeErr => (none, fsRemove path fs)
    | .otherErr => (none, fs)

/-- `ResultCache.get`: try the compressed path first, then the
uncompressed path (backward compatibility); return the cached document or
miss, together with the resulting directory state.  Every exception in
the body is caught, so the function returns rather than raises. -/
def ResultCache.get (cfg : CacheConfig) (md5hex : String → String) (fs : FS) (now : ℚ)
    (test_id run_id : String) : Option Json × FS :=
  let key := ResultCache.get_cache_key md5hex test_id run_id
  match alookup (gzPathOf cfg key) fs with
  | some entry => readAttempt cfg fs now (gzPathOf cfg key) true entry
  | none =>
    match alookup (jsonPathOf cfg key) fs with
    | some entry => readAttempt cfg fs now (jsonPathOf cfg key) false entry
    | none => (none, fs)

/-- The aspects of the Python object passed as `data` that
`ResultCache.set` observes: its truthiness (`if not data`) and the JSON
document `json.dump` would produce for it, if any. -/
structure Payload where
  toJson : Option Json
  truthy : Bool

/-- Result of `ResultCache.set`: a returned boolean, or an exception
escaping the call. -/
inductive SetOutcome where
  | ret (b : Bool)
  | raisesExc

/-- Environment behaviour of the write I/O performed by
`ResultCache.set`: the write either succeeds or fails with some
`OSError`-like exception; `tempCreated` records whether the failure
struck after the temp file came into existence (mid-write, or at the
final rename) or before (at `open` itself). -/
inductive WriteEnv where
  | success
  | ioError (tempCreated : Bool)

/-- `ResultCache.set`.  Empty data is rejected up front.  Otherwise the
payload is serialized to `{cache_path}.tmp` and the temp file is renamed
over the final path.  The first handler clause of the `try` is
`except json.JSONEncodeError` — an attribute that does not exist in the
`json` module — so for every exception raised in the `try` body
(a `TypeError` from `json.dump` on a non-serializable value just as much
as an `OSError` from the write or the rename), evaluating that clause
raises `AttributeError` and cancels the handler search: the generic
`except Exception` below it, with its temp-file cleanup and
`return False`, is dead code.  In both failure modes an exception
escapes `set` (the `ErrorContext` conversion itself then also raises,
since `CacheError.__init__` accepts no `error_code`/`details` keywords)
and any temp file that was created stays on disk; its leftover content
(truncated or, after a rename failure, complete) is modelled coarsely as
`truncatedWrite`, which no probed path ever holds. -/
def ResultCache.set (cfg : CacheConfig) (md5hex : String → String) (fs : FS) (now : ℚ)
    (test_id run_id : String) (data : Payload) (env : WriteEnv) : SetOutcome × FS :=
  if !data.truthy then (.ret false, fs)
  else
    let key := ResultCache.get_cache_key md5hex test_id run_id
    let cache_path := ResultCache.get_cache_path cfg key
    let temp_path := cache_path ++ ".tmp"
    match data.toJson with
    | none => (.raisesExc, fsWrite temp_path ⟨.truncatedWrite, now⟩ fs)
    | some j =>
      match env with
      | .ioError tempCreated =>
        (.raisesExc, if tempCreated then fsWrite temp_path ⟨.truncatedWrite, now⟩ fs else fs)
      | .success =>
        let c := if cfg.compression then Content.gzOf (.jsonText j) else Content.plain (.jsonText j)
        (.ret true, fsWrite cache_path ⟨c, now⟩ (fsRemove temp_path fs))

/-- `ResultCache.invalidate`: remove both the compressed and the
uncompressed file for the key; report whether any removal happened. -/
def ResultCache.invalidate (cfg : CacheConfig) (md5hex : String → String) (fs : FS)
    (test_id run_id : String) : Bool × FS :=
  let key := ResultCache.get_cache_key md5hex test_id run_id
  let gzp := gzPathOf cfg key
  let jp := jsonPathOf cfg key
  let s1 := (alookup gzp fs).isSome
  let fs1 := if s1 then fsRemove gzp fs else fs
  let s2 := (alookup jp fs1).isSome
  let fs2 := if s2 then fsRemove jp fs1 else fs1
  (s1 || s2, fs2)

/-- Values stored in an error's `details` map. -/
inductive DVal where
  | s (v : String)
  | n (v : ℤ)
  | b (v : Bool)
  | nil

/-- The observable state of a `BPError`: message, error code, the
`retry_possible` flag, and the open `details` map. -/
structure BPErrorData where
  message : String
  error_code : Option String
  retry_possible : Bool
  details : List (String × DVal)

/-- Python `x or default` for an optional string (`None` and `""` are
falsy). -/
def pyOrStr (o : Option String) (d : String) : String :=
  match o with
  | none => d
  | some s => if s = "" then d else s

/-- Python `x or default` for an optional integer (`None` and `0` are
falsy). -/
def pyOrInt (o : Option ℤ) (d : ℤ) : ℤ :=
  match o with
  | none => d
  | some m => if m = 0 then d else m

/-- `APIError.__init__`: builds the details map from status code,
endpoint and (if truthy) response, and defaults the error code to
`"API_ERROR"`. -/
def APIError.mk_data (message : String) (status_code : Option ℤ) (response : Option String)
    (endpoint : Option String) (retry_possible : Bool) (error_code : Option String) :
    BPErrorData :=
  let base : List (String × DVal) :=
    [("status_code", match status_code with | some v => .n v | none => .nil),
     ("endpoint", match endpoint with | some s => .s s | none => .nil)]
  let details :=
    match response with
    | some r => if r = "" then base else base ++ [("response", .s r)]
    | none => base
  { message := message
    error_code := some (pyOrStr error_code "API_ERROR")
    retry_possible := retry_possible
    details := details }

/-- `AuthenticationError.__init__`: an `APIError` with
`retry_possible=False` and code `"AUTH_ERROR"`. -/
def AuthenticationError.mk_data (message : String) (status_code : Option ℤ)
    (response : Option String) (endpoint : Option String) : BPErrorData :=
  APIError.mk_data message status_code response endpoint false (some "AUTH_ERROR")

/-- `NetworkError.__init__`: `retry_possible = retry_count < (max_retries
or 3)`, and a timeout-dependent error code.  The locally built details
dict in the source is dead code (never passed to `super().__init__`), so
the stored details come from `APIError.__init__` with
`status_code=None`, `response=None`. -/
def NetworkError.mk_data (message : String) (endpoint : Option String) (is_timeout : Bool)
    (retry_count : ℤ) (max_retries : Option ℤ) : BPErrorData :=
  let retry_possible := decide (retry_count < pyOrInt max_retries 3)
  let error_code := if is_timeout then "TIMEOUT_ERROR" else "NETWORK_ERROR"
  APIError.mk_data message none none endpoint retry_possible (some error_code)

/-- An exception observed by `ErrorContext.__exit__`: a taxonomy error
(with a flag for `isinstance(e, (APIError, TestError))`) or a foreign
exception.  For a foreign exception, `typeAccepts` records whether the
configured `error_type`'s constructor accepts the
`error_code=.../details=...` keywords the conversion passes — true for
the base `BPError`, false for subclasses with their own signatures such
as `CacheError` or `APIError`, whose constructor call raises
`TypeError`. -/
inductive PyExcK where
  | bp (e : BPErrorData) (isApiOrTest : Bool)
  | other (message : String) (typeAccepts : Bool)

/-- Result of `ErrorContext.__exit__`: no exception, exception swallowed
by a successful recovery, taxonomy exception propagating (annotated), a
converted foreign exception raised in its place, or the conversion call
itself crashing with `TypeError` (when `error_type`'s constructor
rejects the keywords), which then escapes `__exit__`. -/
inductive ExitOutcome where
  | noException
  | handled
  | propagate (e : BPErrorData)
  | raiseConverted (e : BPErrorData)
  | raisesConvertErr

/-- The detail-merge loop of `ErrorContext.__exit__`: for each context
pair, add it only when its key is absent from the (growing) details
map. -/
def mergeAbsent (d ctx : List (String × DVal)) : List (String × DVal) :=
  ctx.foldl (fun acc kv => if (alookup kv.1 acc).isSome then acc else acc ++ [kv]) d

/-- `ErrorContext.__exit__`.  `recovery = some ok` models a supplied
recovery callback that succeeds iff `ok`; recovery is only attempted for
`APIError`/`TestError` instances.  A taxonomy error gets the context
merged into its details and propagates; a foreign exception is replaced
by a converted taxonomy error carrying the context as details. -/
def ErrorContext.exit (context_info : List (String × DVal)) (error_code : Option String)
    (recovery : Option Bool) (exc : Option PyExcK) : ExitOutcome :=
  match exc with
  | none => .noException
  | some e =>
    let recovered :=
      match recovery, e with
      | some ok, .bp _ true => ok
      | _, _ => false
    if recovered then .handled
    else
      match e with
      | .bp b _ => .propagate { b with details := mergeAbsent b.details context_info }
      | .other m acc =>
        if acc then
          .raiseConverted
            { message := m, error_code := error_code, retry_possible := false,
              details := context_info }
        else .raisesConvertErr

/-- `RetryConfig` of the decorator-based retry wrapper. -/
structure RetryConfig where
  max_retries : ℕ
  base_delay : ℚ
  jitter : ℚ

/-- `RetryConfig.get_delay`: exponential backoff with jitter;
`u ∈ [0,1)` is the draw of `random.random()`. -/
def RetryConfig.get_delay (c : RetryConfig) (retry : ℕ) (u : ℚ) : ℚ :=
  let delay := c.base_delay * 2 ^ retry
  let jitter_amount := delay * c.jitter * u
  delay + jitter_amount

/-- The aspects of a raised exception the retry wrappers observe:
membership in the configured retryable classes, presence and value of
`retry_possible`, and presence and value of `retry_count`. -/
structure RetryExc where
  retryable_class : Bool
  has_retry_possible : Bool
  retry_possible : Bool
  has_retry_count : Bool
  retry_count : ℕ

/-- Outcome of one invocation of the wrapped operation. -/
inductive CallOutcome (α : Type) where
  | ok (v : α)
  | exc (e : RetryExc)

/-- Final outcome of a retry-wrapped call. -/
inductive RetryResult (α : Type) where
  | value (v : α)
  | raised (e : RetryExc)

/-- Trace of a retry-wrapped call: outcome, number of invocations of the
operation, and the sequence of backoff sleeps performed. -/
structure RunResult (α : Type) where
  result : RetryResult α
  calls : ℕ
  sleeps : List ℚ

/-- The loop of the decorator `retry_with_backoff` (error_handler.py):
`retry` is the current 0-based attempt index and `n` the number of loop
iterations still available after this one.  A non-retryable-class
exception re-raises at once; a retryable-class exception with
`retry_possible` explicitly false re-raises at once; on the last
iteration the exception is re-raised with `retry_count` updated when the
attribute exists; otherwise the wrapper sleeps `get_delay retry` and
retries. -/
def retryGo {α : Type} (c : RetryConfig) (op : ℕ → CallOutcome α) (rand : ℕ → ℚ) :
    ℕ → ℕ → List ℚ → RunResult α
  | n, retry, sleeps =>
    match op retry with
    | .ok v => ⟨.value v, retry + 1, sleeps⟩
    | .exc e =>
      if e.retryable_class then
        if e.has_retry_possible && !e.retry_possible then
          ⟨.raised e, retry + 1, sleeps⟩
        else
          match n with
          | 0 =>
            let e' := if e.has_retry_count then { e with retry_count := retry } else e
            ⟨.raised e', retry + 1, sleeps⟩
          | n + 1 =>
            retryGo c op rand n (retry + 1) (sleeps ++ [c.get_delay retry (rand retry)])
      else
        ⟨.raised e, retry + 1, sleeps⟩

/-- The decorator-based retry wrapper `retry_with_backoff`
(error_handler.py, lines 60-113): run the loop from attempt 0 with
`max_retries` further iterations available. -/
def retry_with_backoff {α : Type} (c : RetryConfig) (op : ℕ → CallOutcome α)
    (rand : ℕ → ℚ) : RunResult α :=
  retryGo c op rand c.max_retries 0 []

/-- The backoff delay of `ErrorHandler.retry_with_backoff`
(exceptions.py, line 536): `base_delay * 2 ** retry + random.random() *
0.1 * base_delay` — the jitter term is not scaled by `2 ** retry` and its
factor is the fixed constant `0.1`. -/
def ErrorHandler.delay (base_delay : ℚ) (retry : ℕ) (u : ℚ) : ℚ :=
  base_delay * 2 ^ retry + u * (1 / 10) * base_delay

/-- The loop of `ErrorHandler.retry_with_backoff` (exceptions.py): same
structure as the decorator loop, but with the `ErrorHandler.delay`
formula and no `retry_count` update on the final re-raise. -/
def ehGo {α : Type} (base_delay : ℚ) (op : ℕ → CallOutcome α) (rand : ℕ → ℚ) :
    ℕ → ℕ → List ℚ → RunResult α
  | n, retry, sleeps =>
    match op retry with
    | .ok v => ⟨.value v, retry + 1, sleeps⟩
    | .exc e =>
      if e.retryable_class then
        if e.has_retry_possible && !e.retry_possible then
          ⟨.raised e, retry + 1, sleeps⟩
        else
          match n with
          | 0 => ⟨.raised e, retry + 1, sleeps⟩
          | n + 1 =>
            ehGo base_delay op rand n (retry + 1)
              (sleeps ++ [ErrorHandler.delay base_delay retry (rand retry)])
      else
        ⟨.raised e, retry + 1, sleeps⟩

/-- `ErrorHandler.retry_with_backoff` (exceptions.py, lines 490-551). -/
def ErrorHandler.retry_with_backoff {α : Type} (max_retries : ℕ) (base_delay : ℚ)
    (op : ℕ → CallOutcome α) (rand : ℕ → ℚ) : RunResult α :=
  ehGo base_delay op rand max_retries 0 []

/-! ### Helper lemmas -/

theorem alookup_fsRemove (q p : String) (fs : FS) :
    alookup q (fsRemove p fs) = if q = p then none else alookup q fs := by
  induction fs with
  | nil => simp [fsRemove, alookup]
  | cons hd tl ih =>
    obtain ⟨r, e⟩ := hd
    by_cases hrp : r = p
    · subst hrp
      by_cases hq : q = r
      · subst hq
        simp [fsRemove, ih]
      · simp [fsRemove, alookup, hq, ih]
    · by_cases hq : q = r
      · subst hq
        simp [fsRemove, alookup, hrp]
      · simp [fsRemove, alookup, hrp, hq, ih]

theorem alookup_fsWrite_self (p : String) (e : FileEntry) (fs : FS) :
    alookup p (fsWrite p e fs) = some e := by
  simp [fsWrite, alookup]

theorem alookup_fsWrite_ne {q p : String} (h : q ≠ p) (e : FileEntry) (fs : FS) :
    alookup q (fsWrite p e fs) = alookup q fs := by
  simp [fsWrite, alookup, h, alookup_fsRemove]

theorem alookup_append {V : Type} (k : String) (l1 l2 : List (String × V)) :
    alookup k (l1 ++ l2) =
      (match alookup k l1 with | some v => some v | none => alookup k l2) := by
  induction l1 with
  | nil => simp [alookup]
  | cons hd tl ih =>
    obtain ⟨k1, v1⟩ := hd
    by_cases h : k = k1 <;> simp [alookup, h, ih]

theorem length_json_gz : (".json.gz" : String).length = 8 := rfl

theorem length_json_ext : (".json" : String).length = 5 := rfl

theorem length_tmp_ext : (".tmp" : String).length = 4 := rfl

theorem gz_ne_jsonPath (cfg : CacheConfig) (k : String) :
    gzPathOf cfg k ≠ jsonPathOf cfg k := by
  intro h
  have h' := congrArg String.length h
  simp only [gzPathOf, jsonPathOf, String.length_append, length_json_gz, length_json_ext] at h'
  omega

theorem gz_ne_jsonTmp (cfg : CacheConfig) (k : String) :
    gzPathOf cfg k ≠ jsonPathOf cfg k ++ ".tmp" := by
  intro h
  have h' := congrArg String.length h
  simp only [gzPathOf, jsonPathOf, String.length_append, length_json_gz, length_json_ext,
    length_tmp_ext] at h'
  omega

theorem self_ne_tmp (s : String) : s ≠ s ++ ".tmp" := by
  intro h
  have h' := congrArg String.length h
  simp only [String.length_append, length_tmp_ext] at h'
  omega

theorem mergeAbsent_cons (d : List (String × DVal)) (kv : String × DVal)
    (tl : List (String × DVal)) :
    mergeAbsent d (kv :: tl) =
      mergeAbsent (if (alookup kv.1 d).isSome then d else d ++ [kv]) tl := rfl

theorem mergeAbsent_lookup_some (k : String) (ctx : List (String × DVal)) :
    ∀ d : List (String × DVal), (alookup k d).isSome →
      alookup k (mergeAbsent d ctx) = alookup k d := by
  induction ctx with
  | nil => intro d _; rfl
  | cons hd tl ih =>
    intro d h
    rw [mergeAbsent_cons]
    by_cases h' : (alookup hd.1 d).isSome
    · rw [if_pos h']
      exact ih d h
    · rw [if_neg h']
      have happ : alookup k (d ++ [hd]) = alookup k d := by
        rw [alookup_append]
        obtain ⟨v, hv⟩ := Option.isSome_iff_exists.mp h
        rw [hv]
      rw [ih (d ++ [hd]) (by rw [happ]; exact h), happ]

theorem mergeAbsent_lookup_none (k : String) (ctx : List (String × DVal)) :
    ∀ d : List (String × DVal), alookup k d = none →
      alookup k (mergeAbsent d ctx) = alookup k ctx := by
  induction ctx with
  | nil => intro d h; simpa [mergeAbsent, alookup] using h
  | cons hd tl ih =>
    intro d h
    obtain ⟨k1, v1⟩ := hd
    rw [mergeAbsent_cons]
    by_cases hk : k = k1
    · subst hk
      rw [if_neg (by simp [h])]
      have hsome : alookup k (d ++ [(k, v1)]) = some v1 := by
        rw [alookup_append, h]
        simp [alookup]
      rw [mergeAbsent_lookup_some k tl _ (by simp [hsome]), hsome]
      simp [alookup]
    · by_cases h' : (alookup k1 d).isSome
      · rw [if_pos h', ih d h]
        simp [alookup, hk]
      · rw [if_neg h']
        have h2 : alookup k (d ++ [(k1, v1)]) = none := by
          rw [alookup_append, h]
          simp [alookup, hk]
        rw [ih _ h2]
        simp [alookup, hk]

theorem retryGo_exc {α : Type} (c : RetryConfig) (op : ℕ → CallOutcome α) (rand : ℕ → ℚ)
    (e : RetryExc) (hop : ∀ n, op n = .exc e) (h1 : e.retryable_class = true)
    (h2 : e.retry_possible = true) :
    ∀ (n retry : ℕ) (sleeps : List ℚ),
      (retryGo c op rand n retry sleeps).calls = retry + n + 1 ∧
      (retryGo c op rand n retry sleeps).result =
        .raised (if e.has_retry_count then { e with retry_count := retry + n } else e) := by
  intro n
  induction n with
  | zero =>
    intro retry sleeps
    simp [retryGo, hop, h1, h2]
  | succ n ih =>
    intro retry sleeps
    have harith : retry + 1 + n = retry + (n + 1) := by omega
    have ih' := ih (retry + 1) (sleeps ++ [c.get_delay retry (rand retry)])
    have hstep : retryGo c op rand (n + 1) retry sleeps =
        retryGo c op rand n (retry + 1) (sleeps ++ [c.get_delay retry (rand retry)]) := by
      rw [retryGo]
      simp [hop, h1, h2]
    constructor
    · rw [hstep, ih'.1]
      omega
    · rw [hstep, ih'.2, harith]

theorem ehGo_exc {α : Type} (bd : ℚ) (op : ℕ → CallOutcome α) (rand : ℕ → ℚ)
    (e : RetryExc) (hop : ∀ n, op n = .exc e) (h1 : e.retryable_class = true)
    (h2 : e.retry_possible = true) :
    ∀ (n retry : ℕ) (sleeps : List ℚ),
      (ehGo bd op rand n retry sleeps).calls = retry + n + 1 ∧
      (ehGo bd op rand n retry sleeps).result = .raised e := by
  intro n
  induction n with
  | zero =>
    intro retry sleeps
    simp [ehGo, hop, h1, h2]
  | succ n ih =>
    intro retry sleeps
    have ih' := ih (retry + 1) (sleeps ++ [ErrorHandler.delay bd retry (rand retry)])
    have hstep : ehGo bd op rand (n + 1) retry sleeps =
        ehGo bd op rand n (retry + 1) (sleeps ++ [ErrorHandler.delay bd retry (rand retry)]) := by
      rw [ehGo]
      simp [hop, h1, h2]
    constructor
    · rw [hstep, ih'.1]
      omega
    · rw [hstep, ih'.2]

theorem get_gz_hit (cfg : CacheConfig) (md5hex : String → String) (fs : FS) (now' : ℚ)
    (tid rid : String) (j : Json) (mt : ℚ)
    (hlk : alookup (gzPathOf cfg (ResultCache.get_cache_key md5hex tid rid)) fs =
      some ⟨.gzOf (.jsonText j), mt⟩)
    (hfresh : now' - mt ≤ cfg.ttl) :
    ResultCache.get cfg md5hex fs now' tid rid = (some j, fs) := by
  simp only [ResultCache.get, hlk, readAttempt]
  rw [if_neg (not_lt.mpr hfresh)]
  rfl

theorem get_json_hit (cfg : CacheConfig) (md5hex : String → String) (fs : FS) (now' : ℚ)
    (tid rid : String) (j : Json) (mt : ℚ)
    (hgz : alookup (gzPathOf cfg (ResultCache.get_cache_key md5hex tid rid)) fs = none)
    (hlk : alookup (jsonPathOf cfg (ResultCache.get_cache_key md5hex tid rid)) fs =
      some ⟨.plain (.jsonText j), mt⟩)
    (hfresh : now' - mt ≤ cfg.ttl) :
    ResultCache.get cfg md5hex fs now' tid rid = (some j, fs) := by
  simp only [ResultCache.get, hgz, hlk, readAttempt]
  rw [if_neg (not_lt.mpr hfresh)]
  rfl

theorem set_get_roundtrip (cfg : CacheConfig) (md5hex : String → String) (fs : FS)
    (now now' : ℚ) (tid rid tid' rid' : String) (j : Json)
    (hkey : ResultCache.get_cache_key md5hex tid' rid' =
      ResultCache.get_cache_key md5hex tid rid)
    (hfresh : now' - now ≤ cfg.ttl)
    (hnogz : cfg.compression = false →
      alookup (gzPathOf cfg (ResultCache.get_cache_key md5hex tid rid)) fs = none) :
    (ResultCache.set cfg md5hex fs now tid rid ⟨some j, true⟩ .success).1 = .ret true ∧
    ResultCache.get cfg md5hex
        (ResultCache.set cfg md5hex fs now tid rid ⟨some j, true⟩ .success).2 now' tid' rid' =
      (some j,
        (ResultCache.set cfg md5hex fs now tid rid ⟨some j, true⟩ .success).2) := by
  constructor
  · simp [ResultCache.set]
  · cases hc : cfg.compression
    case false =>
      have hset : (ResultCache.set cfg md5hex fs now tid rid ⟨some j, true⟩ .success).2 =
          fsWrite (jsonPathOf cfg (ResultCache.get_cache_key md5hex tid rid))
            ⟨.plain (.jsonText j), now⟩
            (fsRemove (jsonPathOf cfg (ResultCache.get_cache_key md5hex tid rid) ++ ".tmp") fs) := by
        simp [ResultCache.set, ResultCache.get_cache_path, hc]
      rw [hset]
      apply get_json_hit
      · rw [hkey, alookup_fsWrite_ne (gz_ne_jsonPath cfg _), alookup_fsRemove,
          if_neg (gz_ne_jsonTmp cfg _)]
        exact hnogz hc
      · rw [hkey]
        exact alookup_fsWrite_self _ _ _
      · exact hfresh
    case true =>
      have hset : (ResultCache.set cfg md5hex fs now tid rid ⟨some j, true⟩ .success).2 =
          fsWrite (gzPathOf cfg (ResultCache.get_cache_key md5hex tid rid))
            ⟨.gzOf (.jsonText j), now⟩
            (fsRemove (gzPathOf cfg (ResultCache.get_cache_key md5hex tid rid) ++ ".tmp") fs) := by
        simp [ResultCache.set, ResultCache.get_cache_path, hc]
      rw [hset]
      apply get_gz_hit
      · rw [hkey]
        exact alookup_fsWrite_self _ _ _
      · exact hfresh

/-! ### Claims -/

/-- C1: the claim says every serialization or I/O failure in
`ResultCache.set` is surfaced as a returned `false` with the temp file
cleaned up.  The code violates this for serialization failures: the
handler clause names the nonexistent attribute `json.JSONEncodeError`, so
an exception escapes `set` and the truncated temp file stays on disk,
while the final cache path is untouched.  This theorem evaluates the
embedded `set` on a truthy, non-serializable payload and shows the
divergence. -/
theorem set_serialization_failure_raises (cfg : CacheConfig) (md5hex : String → String)
    (fs : FS) (now : ℚ) (tid rid : String) (env : WriteEnv) :
    (ResultCache.set cfg md5hex fs now tid rid ⟨none, true⟩ env).1 = .raisesExc ∧
    alookup
        (ResultCache.get_cache_path cfg (ResultCache.get_cache_key md5hex tid rid) ++ ".tmp")
        (ResultCache.set cfg md5hex fs now tid rid ⟨none, true⟩ env).2 =
      some ⟨.truncatedWrite, now⟩ ∧
    alookup (ResultCache.get_cache_path cfg (ResultCache.get_cache_key md5hex tid rid))
        (ResultCache.set cfg md5hex fs now tid rid ⟨none, true⟩ env).2 =
      alookup (ResultCache.get_cache_path cfg (ResultCache.get_cache_key md5hex tid rid)) fs := by
  refine ⟨?_, ?_, ?_⟩
  · simp [ResultCache.set]
  · simp [ResultCache.set, alookup_fsWrite_self]
  · simp only [ResultCache.set, Bool.not_true, Bool.false_eq_true, if_false, ite_false]
    rw [alookup_fsWrite_ne (self_ne_tmp _)]

/-- C2 counterexample: a compressed cache file holding garbage bytes
(here: plain non-JSON text, which is not a valid gzip stream) makes `get`
return miss, but the corrupted file still exists afterward, contradicting
the claim that the file no longer exists for either encoding. -/
theorem get_gz_garbage_file_survives :
    (ResultCache.get ⟨"d", 10, true⟩ (fun s => s)
        [("d/t_r.json.gz", ⟨.plain .notJson, 0⟩)] 1 "t" "r").1 = none ∧
    (ResultCache.get ⟨"d", 10, true⟩ (fun s => s)
        [("d/t_r.json.gz", ⟨.plain .notJson, 0⟩)] 1 "t" "r").2 =
      [("d/t_r.json.gz", ⟨.plain .notJson, 0⟩)] := by
  have h : alookup (gzPathOf ⟨"d", 10, true⟩ (ResultCache.get_cache_key (fun s => s) "t" "r"))
      [("d/t_r.json.gz", (⟨.plain .notJson, 0⟩ : FileEntry))] =
      some ⟨.plain .notJson, 0⟩ := rfl
  constructor <;>
    simp only [ResultCache.get, h, readAttempt, readContent, ite_self]

/-- C2 (amended): if the stored content decodes under the file's encoding
layer but fails JSON parsing, a fresh `get` returns miss and deletes the
file — at the `.json.gz` path (conjunct 1) and at the `.json` path
(conjunct 2).  If the encoding layer itself fails, `get` returns miss
and leaves the file in place — at the `.json.gz` path for bytes that are
not a valid gzip stream, i.e. plain text or undecodable bytes
(conjuncts 3-4), and at the `.json` path for bytes that are not valid
UTF-8 text, i.e. a gzip stream or undecodable bytes, where
`UnicodeDecodeError` falls to the generic handler (conjuncts 5-6).
`get` never raises in any case (it returns a value by construction). -/
theorem get_corrupt_parse_behaviour (cfg : CacheConfig) (md5hex : String → String) (fs : FS)
    (now mt : ℚ) (tid rid : String) :
    (alookup (gzPathOf cfg (ResultCache.get_cache_key md5hex tid rid)) fs =
        some ⟨.gzOf .notJson, mt⟩ → now - mt ≤ cfg.ttl →
      ResultCache.get cfg md5hex fs now tid rid =
        (none, fsRemove (gzPathOf cfg (ResultCache.get_cache_key md5hex tid rid)) fs)) ∧
    (alookup (gzPathOf cfg (ResultCache.get_cache_key md5hex tid rid)) fs = none →
      alookup (jsonPathOf cfg (ResultCache.get_cache_key md5hex tid rid)) fs =
        some ⟨.plain .notJson, mt⟩ → now - mt ≤ cfg.ttl →
      ResultCache.get cfg md5hex fs now tid rid =
        (none, fsRemove (jsonPathOf cfg (ResultCache.get_cache_key md5hex tid rid)) fs)) ∧
    (∀ t : TextData,
      alookup (gzPathOf cfg (ResultCache.get_cache_key md5hex tid rid)) fs =
        some ⟨.plain t, mt⟩ → now - mt ≤ cfg.ttl →
      ResultCache.get cfg md5hex fs now tid rid = (none, fs)) ∧
    (alookup (gzPathOf cfg (ResultCache.get_cache_key md5hex tid rid)) fs =
        some ⟨.badBytes, mt⟩ → now - mt ≤ cfg.ttl →
      ResultCache.get cfg md5hex fs now tid rid = (none, fs)) ∧
    (∀ t : TextData,
      alookup (gzPathOf cfg (ResultCache.get_cache_key md5hex tid rid)) fs = none →
      alookup (jsonPathOf cfg (ResultCache.get_cache_key md5hex tid rid)) fs =
        some ⟨.gzOf t, mt⟩ → now - mt ≤ cfg.ttl →
      ResultCache.get cfg md5hex fs now tid rid = (none, fs)) ∧
    (alookup (gzPathOf cfg (ResultCache.get_cache_key md5hex tid rid)) fs = none →
      alookup (jsonPathOf cfg (ResultCache.get_cache_key md5hex tid rid)) fs =
        some ⟨.badBytes, mt⟩ → now - mt ≤ cfg.ttl →
      ResultCache.get cfg md5hex fs now tid rid = (none, fs)) := by
  refine ⟨?_, ?_, ?_, ?_, ?_, ?_⟩
  · intro h hf
    simp only [ResultCache.get, h, readAttempt]
    rw [if_neg (not_lt.mpr hf)]
    rfl
  · intro h0 h1 hf
    simp only [ResultCache.get, h0, h1, readAttempt]
    rw [if_neg (not_lt.mpr hf)]
    rfl
  · intro t h hf
    cases t <;>
      · simp only [ResultCache.get, h, readAttempt]
        rw [if_neg (not_lt.mpr hf)]
        rfl
  · intro h hf
    simp only [ResultCache.get, h, readAttempt]
    rw [if_neg (not_lt.mpr hf)]
    rfl
  · intro t h0 h1 hf
    cases t <;>
      · simp only [ResultCache.get, h0, h1, readAttempt]
        rw [if_neg (not_lt.mpr hf)]
        rfl
  · intro h0 h1 hf
    simp only [ResultCache.get, h0, h1, readAttempt]
    rw [if_neg (not_lt.mpr hf)]
    rfl

/-- Witness for the amended C2 theorem at a concrete corrupted store. -/
theorem get_corrupt_parse_behaviour_witness :
    ResultCache.get ⟨"d", 10, true⟩ (fun s => s)
        [("d/t_r.json.gz", ⟨.gzOf .notJson, 0⟩)] 1 "t" "r" =
      (none, fsRemove (gzPathOf ⟨"d", 10, true⟩ (ResultCache.get_cache_key (fun s => s) "t" "r"))
        [("d/t_r.json.gz", ⟨.gzOf .notJson, 0⟩)]) :=
  (get_corrupt_parse_behaviour ⟨"d", 10, true⟩ (fun s => s)
      [("d/t_r.json.gz", ⟨.gzOf .notJson, 0⟩)] 1 0 "t" "r").1 rfl (by norm_num)

/-- C3: an operation that always raises a retryable-category error with
`retry_possible` true is invoked exactly `max_retries + 1` times by both
retry implementations, and the final error is re-raised (the decorator
additionally stamps `retry_count` when the attribute exists). -/
theorem retry_exhausts_attempts {α : Type} (c : RetryConfig) (op op2 : ℕ → CallOutcome α)
    (rand rand2 : ℕ → ℚ) (e : RetryExc) (mr : ℕ) (bd : ℚ)
    (hop : ∀ n, op n = .exc e) (hop2 : ∀ n, op2 n = .exc e)
    (h1 : e.retryable_class = true) (h2 : e.retry_possible = true) :
    (retry_with_backoff c op rand).calls = c.max_retries + 1 ∧
    (retry_with_backoff c op rand).result =
      .raised (if e.has_retry_count then { e with retry_count := c.max_retries } else e) ∧
    (ErrorHandler.retry_with_backoff mr bd op2 rand2).calls = mr + 1 ∧
    (ErrorHandler.retry_with_backoff mr bd op2 rand2).result = .raised e := by
  have h := retryGo_exc c op rand e hop h1 h2 c.max_retries 0 []
  have h' := ehGo_exc bd op2 rand2 e hop2 h1 h2 mr 0 []
  refine ⟨?_, ?_, ?_, ?_⟩
  · rw [retry_with_backoff, h.1]
    omega
  · rw [retry_with_backoff, h.2]
    simp [Nat.zero_add]
  · rw [ErrorHandler.retry_with_backoff, h'.1]
    omega
  · rw [ErrorHandler.retry_with_backoff, h'.2]

/-- Witness for C3 with `max_retries = 2`: 3 calls, final error raised. -/
theorem retry_exhausts_attempts_witness :
    (@retry_with_backoff ℕ ⟨2, 1, 1/10⟩ (fun _ => .exc ⟨true, true, true, true, 0⟩)
        (fun _ => 0)).calls = 2 + 1 ∧
    (@retry_with_backoff ℕ ⟨2, 1, 1/10⟩ (fun _ => .exc ⟨true, true, true, true, 0⟩)
        (fun _ => 0)).result = .raised ⟨true, true, true, true, 2⟩ ∧
    (@ErrorHandler.retry_with_backoff ℕ 2 1 (fun _ => .exc ⟨true, true, true, true, 0⟩)
        (fun _ => 0)).calls = 2 + 1 ∧
    (@ErrorHandler.retry_with_backoff ℕ 2 1 (fun _ => .exc ⟨true, true, true, true, 0⟩)
        (fun _ => 0)).result = .raised ⟨true, true, true, true, 0⟩ :=
  @retry_exhausts_attempts ℕ ⟨2, 1, 1/10⟩ _ _ _ _ ⟨true, true, true, true, 0⟩ 2 1
    (fun _ => rfl) (fun _ => rfl) rfl rfl

/-- C4: an error of a retryable category whose `retry_possible` flag is
explicitly false makes the retry wrapper invoke the operation exactly
once, sleep zero times, and re-raise that same error. -/
theorem retry_short_circuit {α : Type} (c : RetryConfig) (op : ℕ → CallOutcome α)
    (rand : ℕ → ℚ) (e : RetryExc) (hop : op 0 = .exc e) (h1 : e.retryable_class = true)
    (h2 : e.has_retry_possible = true) (h3 : e.retry_possible = false) :
    retry_with_backoff c op rand = ⟨.raised e, 1, []⟩ := by
  rw [retry_with_backoff, retryGo]
  simp [hop, h1, h2, h3]

/-- Witness for C4 at a concrete non-retryable error. -/
theorem retry_short_circuit_witness :
    @retry_with_backoff ℕ ⟨3, 1, 1/10⟩ (fun _ => .exc ⟨true, true, false, false, 0⟩)
        (fun _ => 0) = ⟨.raised ⟨true, true, false, false, 0⟩, 1, []⟩ :=
  @retry_short_circuit ℕ ⟨3, 1, 1/10⟩ _ _ ⟨true, true, false, false, 0⟩ rfl rfl rfl rfl

/-- C5 counterexample: at attempt 1, base delay 1 and draw 1/2, the
`ErrorHandler` delay (2 + 1/20) differs from the spec formula
`baseDelay * 2^a + u * (jitter * baseDelay * 2^a)` (2 + 1/10), which the
decorator's `get_delay` computes; so the claim is false for the
`ErrorHandler`-based implementation. -/
theorem eh_delay_not_spec_formula :
    ErrorHandler.delay 1 1 (1/2) ≠ RetryConfig.get_delay ⟨3, 1, 1/10⟩ 1 (1/2) := by
  norm_num [ErrorHandler.delay, RetryConfig.get_delay]

/-- C5 (amended): the decorator's `get_delay` equals
`baseDelay * 2^a + u * (jitter * baseDelay * 2^a)` and lies in
`[baseDelay * 2^a, baseDelay * 2^a * (1 + jitter))`; the
`ErrorHandler` delay instead equals `baseDelay * 2^a + u * (0.1 * baseDelay)`
— its jitter is not scaled by `2^a` and its factor is fixed at 0.1 —
and lies in `[baseDelay * 2^a, baseDelay * 2^a * (1 + 0.1))`. -/
theorem backoff_delay_formulas (c : RetryConfig) (r : ℕ) (u : ℚ)
    (hb : 0 < c.base_delay) (hj : 0 < c.jitter) (hu0 : 0 ≤ u) (hu1 : u < 1) :
    RetryConfig.get_delay c r u =
      c.base_delay * 2 ^ r + u * (c.jitter * (c.base_delay * 2 ^ r)) ∧
    c.base_delay * 2 ^ r ≤ RetryConfig.get_delay c r u ∧
    RetryConfig.get_delay c r u < c.base_delay * 2 ^ r * (1 + c.jitter) ∧
    ErrorHandler.delay c.base_delay r u =
      c.base_delay * 2 ^ r + u * ((1 / 10) * c.base_delay) ∧
    c.base_delay * 2 ^ r ≤ ErrorHandler.delay c.base_delay r u ∧
    ErrorHandler.delay c.base_delay r u < c.base_delay * 2 ^ r * (1 + 1 / 10) := by
  have hD : (0 : ℚ) < c.base_delay * 2 ^ r := by positivity
  have h2r : (1 : ℚ) ≤ 2 ^ r := one_le_pow₀ (by norm_num)
  refine ⟨?_, ?_, ?_, ?_, ?_, ?_⟩
  · simp only [RetryConfig.get_delay]
    ring
  · simp only [RetryConfig.get_delay]
    nlinarith [mul_nonneg (mul_nonneg hD.le hj.le) hu0]
  · simp only [RetryConfig.get_delay]
    nlinarith [mul_pos (mul_pos hD hj) (sub_pos.mpr hu1)]
  · simp only [ErrorHandler.delay]
    ring
  · simp only [ErrorHandler.delay]
    nlinarith [mul_nonneg (mul_nonneg hu0 (by norm_num : (0:ℚ) ≤ 1 / 10)) hb.le]
  · simp only [ErrorHandler.delay]
    nlinarith [mul_pos hb (sub_pos.mpr hu1), mul_le_mul_of_nonneg_left h2r hb.le]

/-- Witness for the amended C5 theorem at base delay 1, jitter 1/10,
attempt 1, draw 1/2. -/
theorem backoff_delay_formulas_witness :
    RetryConfig.get_delay ⟨3, 1, 1/10⟩ 1 (1/2) =
      (1 : ℚ) * 2 ^ 1 + (1/2) * ((1/10) * ((1 : ℚ) * 2 ^ 1)) ∧
    (1 : ℚ) * 2 ^ 1 ≤ RetryConfig.get_delay ⟨3, 1, 1/10⟩ 1 (1/2) ∧
    RetryConfig.get_delay ⟨3, 1, 1/10⟩ 1 (1/2) < (1 : ℚ) * 2 ^ 1 * (1 + 1/10) ∧
    ErrorHandler.delay 1 1 (1/2) = (1 : ℚ) * 2 ^ 1 + (1/2) * ((1 / 10) * 1) ∧
    (1 : ℚ) * 2 ^ 1 ≤ ErrorHandler.delay 1 1 (1/2) ∧
    ErrorHandler.delay 1 1 (1/2) < (1 : ℚ) * 2 ^ 1 * (1 + 1 / 10) :=
  backoff_delay_formulas ⟨3, 1, 1/10⟩ 1 (1/2) (by norm_num) (by norm_num) (by norm_num)
    (by norm_num)

/-- C6: a cache file that exists (under either encoding, respecting the
gz-first lookup order) but whose age exceeds the TTL makes `get` return
miss and leaves the filesystem unchanged — the expired file is not
deleted on read. -/
theorem get_expired_misses_and_keeps (cfg : CacheConfig) (md5hex : String → String)
    (fs : FS) (now : ℚ) (tid rid : String) (entry : FileEntry)
    (hfound :
      alookup (gzPathOf cfg (ResultCache.get_cache_key md5hex tid rid)) fs = some entry ∨
      (alookup (gzPathOf cfg (ResultCache.get_cache_key md5hex tid rid)) fs = none ∧
        alookup (jsonPathOf cfg (ResultCache.get_cache_key md5hex tid rid)) fs = some entry))
    (hexp : now - entry.mtime > cfg.ttl) :
    ResultCache.get cfg md5hex fs now tid rid = (none, fs) := by
  rcases hfound with h | ⟨h0, h1⟩
  · simp only [ResultCache.get, h, readAttempt]
    rw [if_pos hexp]
  · simp only [ResultCache.get, h0, h1, readAttempt]
    rw [if_pos hexp]

/-- Witness for C6: an 11-second-old entry with TTL 10 misses and stays. -/
theorem get_expired_misses_witness :
    ResultCache.get ⟨"d", 10, false⟩ (fun s => s)
        [("d/t_r.json", ⟨.plain (.jsonText .null), 0⟩)] 11 "t" "r" =
      (none, [("d/t_r.json", ⟨.plain (.jsonText .null), 0⟩)]) :=
  get_expired_misses_and_keeps ⟨"d", 10, false⟩ (fun s => s)
    [("d/t_r.json", ⟨.plain (.jsonText .null), 0⟩)] 11 "t" "r"
    ⟨.plain (.jsonText .null), 0⟩ (Or.inr ⟨rfl, rfl⟩) (by norm_num)

/-- C7: a successful `set` of a non-empty JSON-serializable payload,
followed within the TTL by a `get` for the same identifiers, returns the
stored document unchanged, under both the compressed and the
uncompressed setting (the uncompressed case assumes no stale compressed
file already sits at the same key, since `get` probes the `.json.gz`
path first). -/
theorem cache_roundtrip (cfg : CacheConfig) (md5hex : String → String) (fs : FS)
    (now now' : ℚ) (tid rid : String) (j : Json)
    (hfresh : now' - now ≤ cfg.ttl)
    (hnogz : cfg.compression = false →
      alookup (gzPathOf cfg (ResultCache.get_cache_key md5hex tid rid)) fs = none) :
    (ResultCache.set cfg md5hex fs now tid rid ⟨some j, true⟩ .success).1 = .ret true ∧
    ResultCache.get cfg md5hex
        (ResultCache.set cfg md5hex fs now tid rid ⟨some j, true⟩ .success).2 now' tid rid =
      (some j, (ResultCache.set cfg md5hex fs now tid rid ⟨some j, true⟩ .success).2) :=
  set_get_roundtrip cfg md5hex fs now now' tid rid tid rid j rfl hfresh hnogz

/-- Witness for C7 under the compressed setting on an empty store. -/
theorem cache_roundtrip_witness :
    (ResultCache.set ⟨"d", 10, true⟩ (fun s => s) [] 0 "t" "r" ⟨some .null, true⟩ .success).1 =
      .ret true ∧
    ResultCache.get ⟨"d", 10, true⟩ (fun s => s)
        (ResultCache.set ⟨"d", 10, true⟩ (fun s => s) [] 0 "t" "r"
          ⟨some .null, true⟩ .success).2 1 "t" "r" =
      (some .null,
        (ResultCache.set ⟨"d", 10, true⟩ (fun s => s) [] 0 "t" "r"
          ⟨some .null, true⟩ .success).2) :=
  cache_roundtrip ⟨"d", 10, true⟩ (fun s => s) [] 0 1 "t" "r" .null (by norm_num)
    (fun h => nomatch h)

/-- C8: a taxonomy (`BPError`) exception leaving an `ErrorContext` scope
with no successful recovery propagates (is never swallowed), with the
context merged into its details so that every key already present keeps
its value and absent context keys are added. -/
theorem error_context_merge_propagates (ctx d : List (String × DVal)) (msg : String)
    (ec : Option String) (rp : Bool) (apiT : Bool) (cec : Option String)
    (recOpt : Option Bool) (hrec : recOpt = none ∨ recOpt = some false) :
    ∃ e' : BPErrorData,
      ErrorContext.exit ctx cec recOpt (some (.bp ⟨msg, ec, rp, d⟩ apiT)) = .propagate e' ∧
      e'.message = msg ∧ e'.error_code = ec ∧ e'.retry_possible = rp ∧
      (∀ k : String, (alookup k d).isSome → alookup k e'.details = alookup k d) ∧
      (∀ k : String, alookup k d = none → alookup k e'.details = alookup k ctx) := by
  refine ⟨⟨msg, ec, rp, mergeAbsent d ctx⟩, ?_, rfl, rfl, rfl, ?_, ?_⟩
  · rcases hrec with h | h <;> subst h <;> cases apiT <;> rfl
  · intro k hk
    exact mergeAbsent_lookup_some k ctx d hk
  · intro k hk
    exact mergeAbsent_lookup_none k ctx d hk

/-- Witness for C8 on a concrete context and error. -/
theorem error_context_merge_witness :
    ∃ e' : BPErrorData,
      ErrorContext.exit [("operation", .s "get")] (some "CACHE_READ_ERROR") none
          (some (.bp ⟨"m", some "API_ERROR", false, [("k", .s "v")]⟩ true)) =
        .propagate e' ∧
      e'.message = "m" ∧ e'.error_code = some "API_ERROR" ∧ e'.retry_possible = false ∧
      (∀ k : String, (alookup k [("k", DVal.s "v")]).isSome →
        alookup k e'.details = alookup k [("k", DVal.s "v")]) ∧
      (∀ k : String, alookup k [("k", DVal.s "v")] = none →
        alookup k e'.details = alookup k [("operation", DVal.s "get")]) :=
  error_context_merge_propagates [("operation", .s "get")] [("k", .s "v")] "m"
    (some "API_ERROR") false true (some "CACHE_READ_ERROR") none (Or.inl rfl)

/-- C9 counterexample: `NetworkError` built with `retry_count = 1`,
`max_retries = 0` has `retry_possible = true`, although
`retryCount < maxRetries` is false — `max_retries or 3` treats 0 like
`None`, so the bound falls back to 3. -/
theorem network_error_max_retries_zero :
    (NetworkError.mk_data "m" none false 1 (some 0)).retry_possible = true ∧
    ¬ ((1 : ℤ) < 0) := by
  constructor
  · rfl
  · decide

/-- C9 (amended): every `AuthenticationError` has `retry_possible =
false`; every `NetworkError` has `retry_possible = retry_count <
(max_retries or 3)`, i.e. the bound is `max_retries` when that is
non-`None` and nonzero, and the default 3 when it is `None` or 0. -/
theorem taxonomy_retry_flags (msg : String) (sc : Option ℤ) (resp ep : Option String)
    (is_timeout : Bool) (rc : ℤ) (mr : Option ℤ) :
    (AuthenticationError.mk_data msg sc resp ep).retry_possible = false ∧
    (NetworkError.mk_data msg ep is_timeout rc mr).retry_possible =
      decide (rc < pyOrInt mr 3) :=
  ⟨rfl, rfl⟩

theorem alookup_fsRemove_none {q p : String} {fs : FS} (h : alookup q fs = none) :
    alookup q (fsRemove p fs) = none := by
  rw [alookup_fsRemove]
  by_cases hqp : q = p <;> simp [hqp, h]

theorem invalidate_clears (cfg : CacheConfig) (md5hex : String → String) (fs : FS)
    (tid rid : String) :
    alookup (gzPathOf cfg (ResultCache.get_cache_key md5hex tid rid))
        (ResultCache.invalidate cfg md5hex fs tid rid).2 = none ∧
    alookup (jsonPathOf cfg (ResultCache.get_cache_key md5hex tid rid))
        (ResultCache.invalidate cfg md5hex fs tid rid).2 = none := by
  have step1 : ∀ (g : FS) (p : String),
      alookup p (if (alookup p g).isSome then fsRemove p g else g) = none := by
    intro g p
    by_cases h : (alookup p g).isSome
    · rw [if_pos h, alookup_fsRemove]
      simp
    · rw [if_neg h]
      exact Option.not_isSome_iff_eq_none.mp h
  have step2 : ∀ (g : FS) (p q : String), alookup q g = none →
      alookup q (if (alookup p g).isSome then fsRemove p g else g) = none := by
    intro g p q h
    by_cases h' : (alookup p g).isSome
    · rw [if_pos h']
      exact alookup_fsRemove_none h
    · rw [if_neg h']
      exact h
  simp only [ResultCache.invalidate]
  exact ⟨step2 _ _ _ (step1 fs _), step1 _ _⟩

/-- C10: cache-key derivation joins the identifiers with `"_"` before
hashing, so the distinct pairs `("a", "b_c")` and `("a_b", "c")` share
one key for every digest function; consequently a `set` for the first
pair is returned by a `get` for the second, and an `invalidate` for the
second removes the first pair's entry (both candidate files). -/
theorem cache_key_collision (md5hex : String → String) (cfg : CacheConfig) (fs : FS)
    (now now' : ℚ) (j : Json)
    (hfresh : now' - now ≤ cfg.ttl)
    (hnogz : cfg.compression = false →
      alookup (gzPathOf cfg (ResultCache.get_cache_key md5hex "a" "b_c")) fs = none) :
    ResultCache.get_cache_key md5hex "a" "b_c" = ResultCache.get_cache_key md5hex "a_b" "c" ∧
    ((ResultCache.set cfg md5hex fs now "a" "b_c" ⟨some j, true⟩ .success).1 = .ret true ∧
      ResultCache.get cfg md5hex
          (ResultCache.set cfg md5hex fs now "a" "b_c" ⟨some j, true⟩ .success).2
          now' "a_b" "c" =
        (some j, (ResultCache.set cfg md5hex fs now "a" "b_c" ⟨some j, true⟩ .success).2)) ∧
    alookup (gzPathOf cfg (ResultCache.get_cache_key md5hex "a" "b_c"))
        (ResultCache.invalidate cfg md5hex
          (ResultCache.set cfg md5hex fs now "a" "b_c" ⟨some j, true⟩ .success).2
          "a_b" "c").2 = none ∧
    alookup (jsonPathOf cfg (ResultCache.get_cache_key md5hex "a" "b_c"))
        (ResultCache.invalidate cfg md5hex
          (ResultCache.set cfg md5hex fs now "a" "b_c" ⟨some j, true⟩ .success).2
          "a_b" "c").2 = none := by
  have hkey : ResultCache.get_cache_key md5hex "a_b" "c" =
      ResultCache.get_cache_key md5hex "a" "b_c" := rfl
  refine ⟨rfl,
    set_get_roundtrip cfg md5hex fs now now' "a" "b_c" "a_b" "c" j hkey hfresh hnogz,
    ?_, ?_⟩
  · have h := (invalidate_clears cfg md5hex
      (ResultCache.set cfg md5hex fs now "a" "b_c" ⟨some j, true⟩ .success).2 "a_b" "c").1
    rw [hkey] at h
    exact h
  · have h := (invalidate_clears cfg md5hex
      (ResultCache.set cfg md5hex fs now "a" "b_c" ⟨some j, true⟩ .success).2 "a_b" "c").2
    rw [hkey] at h
    exact h

/-- Witness for C10 on a concrete compressed store. -/
theorem cache_key_collision_witness :
    ResultCache.get_cache_key (fun s => s) "a" "b_c" =
      ResultCache.get_cache_key (fun s => s) "a_b" "c" ∧
    ((ResultCache.set ⟨"d", 10, true⟩ (fun s => s) [] 0 "a" "b_c"
        ⟨some .null, true⟩ .success).1 = .ret true ∧
      ResultCache.get ⟨"d", 10, true⟩ (fun s => s)
          (ResultCache.set ⟨"d", 10, true⟩ (fun s => s) [] 0 "a" "b_c"
            ⟨some .null, true⟩ .success).2 1 "a_b" "c" =
        (some .null,
          (ResultCache.set ⟨"d", 10, true⟩ (fun s => s) [] 0 "a" "b_c"
            ⟨some .null, true⟩ .success).2)) ∧
    alookup (gzPathOf ⟨"d", 10, true⟩ (ResultCache.get_cache_key (fun s => s) "a" "b_c"))
        (ResultCache.invalidate ⟨"d", 10, true⟩ (fun s => s)
          (ResultCache.set ⟨"d", 10, true⟩ (fun s => s) [] 0 "a" "b_c"
            ⟨some .null, true⟩ .success).2 "a_b" "c").2 = none ∧
    alookup (jsonPathOf ⟨"d", 10, true⟩ (ResultCache.get_cache_key (fun s => s) "a" "b_c"))
        (ResultCache.invalidate ⟨"d", 10, true⟩ (fun s => s)
          (ResultCache.set ⟨"d", 10, true⟩ (fun s => s) [] 0 "a" "b_c"
            ⟨some .null, true⟩ .success).2 "a_b" "c").2 = none :=
  cache_key_collision (fun s => s) ⟨"d", 10, true⟩ [] 0 1 .null (by norm_num)
    (fun h => nomatch h)
